import Mathlib

/-!
Shallow embedding of the ec2-ssh wrapper (Go sources `main.go` and `ssh.go`).

The wrapper runs `ssh -G` to dump the effective client configuration, parses
it into a map from option name to a list of values, resolves the target
hostname to an IP address, locates a local private key, reads its public
half, sweeps a fixed list of AWS regions looking for an EC2 instance whose
private IP matches, pushes the public key via EC2 Instance Connect, and
finally execs the real `ssh` with the original arguments.

External effects (subprocesses, DNS, filesystem, AWS APIs) are modelled by an
explicit `Env` record of oracles; each effectful step also emits an `Event`
into a trace, so that temporal claims (ordering of network calls, which
regions were queried, whether the final connection was attempted) become
statements about the trace.  Go errors are modelled as message strings;
a Go runtime panic (index out of range) is the distinct failure `Failure.panic`.
-/

namespace EC2SSH

deriving instance DecidableEq for Except

/-- Go errors are carried as their message strings. -/
abbrev GoError := String

/-- Outcome of a step: an ordinary returned Go error, or a runtime panic
(e.g. index out of range on a slice). -/
inductive Failure where
  | goError (msg : GoError)
  | panic
deriving DecidableEq, Repr

/-- Observable external calls made by the wrapper, in order. -/
inductive Event where
  | dumpConfig
  | dnsLookup (host : String)
  | loadAwsConfig (region : String)
  | describeInstances (region : String) (ip : String)
  | describeInstanceStatus (region : String) (instanceId : String)
  | sendSSHPublicKey (region : String) (instanceId : String)
  | connectSpawn
deriving DecidableEq, Repr

/-- A step returns a result (or failure) together with the list of external
calls it performed, in order. -/
def TraceM (α : Type) : Type := Except Failure α × List Event

/-- Sequencing of traced steps: on failure the continuation does not run. -/
def tbind {α β : Type} (x : TraceM α) (f : α → TraceM β) : TraceM β :=
  match x with
  | (Except.ok a, t) => ((f a).1, t ++ (f a).2)
  | (Except.error e, t) => (Except.error e, t)

/-- A pure traced value. -/
def tpure {α : Type} (a : α) : TraceM α := (Except.ok a, [])

/-- Model of `fmt.Errorf("prefix: %w", err)` around a traced step: a returned
Go error gets the given text prepended; a panic is not an error value in Go
and passes through untouched. -/
def wrapGoError {α : Type} (pre : String) (x : TraceM α) : TraceM α :=
  match x with
  | (Except.error (Failure.goError e), t) => (Except.error (Failure.goError (pre ++ e)), t)
  | r => r

/-!  ### String helpers modelling the Go standard library

The Go code uses `strings.Split(s, " ")`, `strings.Join(xs, " ")`,
`path/filepath.Join` and byte slicing.  These are modelled by structurally
recursive functions over the character list, so that everything evaluates
inside the kernel.  All strings involved are ASCII, where byte indexing and
character indexing agree. -/

/-- Model of Go `strings.Split(s, sep)` for a single-character separator:
splits at every occurrence, keeping empty fields. -/
def splitCharAux (sep : Char) : List Char → List Char → List String
  | [], acc => [String.mk acc.reverse]
  | c :: cs, acc =>
    if c = sep then String.mk acc.reverse :: splitCharAux sep cs []
    else splitCharAux sep cs (c :: acc)

/-- Split a string on every occurrence of a single character. -/
def splitChar (sep : Char) (s : String) : List String :=
  splitCharAux sep s.toList []

/-- Model of Go `strings.Join(xs, sep)`. -/
def joinWith (sep : String) : List String → String
  | [] => ""
  | [x] => x
  | x :: xs => x ++ sep ++ joinWith sep xs

/-- First byte of a string as a character (all inputs here are ASCII); Go's
`path[0]` on a non-empty string. -/
def strFront (s : String) : Char := s.toList.headD (Char.ofNat 0)

/-- Go `path[1:]`: drop the first byte (here: first ASCII character). -/
def strDrop1 (s : String) : String := String.mk s.toList.tail

/-- Model of Go `path/filepath.Clean` on Unix paths: resolve `.` and `..`
elements, collapse repeated separators, drop trailing separators; the empty
result becomes `"."`. -/
def pathClean (path : String) : String :=
  let rooted : Bool := match path.toList with
    | '/' :: _ => true
    | _ => false
  let comps := (splitChar '/' path).filter (fun c => c != "" && c != ".")
  let out := comps.foldl (fun (stack : List String) c =>
    if c = ".." then
      if stack ≠ [] ∧ stack.getLast? ≠ some ".." then stack.dropLast
      else if rooted then stack else stack ++ [".."]
    else stack ++ [c]) []
  let res := (if rooted then "/" else "") ++ joinWith "/" out
  if res = "" then "." else res

/-- Model of Go `path/filepath.Join(a, b)`: join with the separator and clean;
leading empty elements are skipped, and joining only empty strings gives `""`. -/
def filepathJoin (a b : String) : String :=
  if a ≠ "" then pathClean (a ++ "/" ++ b)
  else if b ≠ "" then pathClean b
  else ""

/-!  ### Configuration map (`map[string][]string`) and the `ssh -G` parser -/

/-- The Go `map[string][]string` holding parsed `ssh -G` output.  Modelled as
an association list with unique keys; Go map iteration order is never used by
the program, only lookups. -/
abbrev ConfigMap := List (String × List String)

/-- Go map lookup `res[k]` (as an `Option`; an absent key is `none`). -/
def cmLookup : ConfigMap → String → Option (List String)
  | [], _ => none
  | (k', v') :: rest, k => if k' = k then some v' else cmLookup rest k

/-- Replace the value stored under an existing key. -/
def cmUpdate : ConfigMap → String → List String → ConfigMap
  | [], _, _ => []
  | (k', v') :: rest, k, v =>
    if k' = k then (k, v) :: rest else (k', v') :: cmUpdate rest k v

/-- Go indexing `res[k]` used as a slice: an absent key yields the zero value
`nil`, i.e. the empty list. -/
def mapIndex (m : ConfigMap) (k : String) : List String := (cmLookup m k).getD []

/-- One iteration of the scanner loop in `sshOptions` (ssh.go:82-94): split
the line on single spaces; on first sight of a key store an empty slice and
`continue` (the line's own value is dropped); on every later sight append the
rest of the line (rejoined with spaces). -/
def parseStep (res : ConfigMap) (line : String) : ConfigMap :=
  match splitChar ' ' line with
  | [] => res
  | key :: rest =>
    match cmLookup res key with
    | none => res ++ [(key, [])]
    | some vs => cmUpdate res key (vs ++ [joinWith " " rest])

/-- The parsing loop of `sshOptions` over the dump's output lines. -/
def parseOptions (lines : List String) : ConfigMap :=
  lines.foldl parseStep []

/-- The key of a dump line: its first space-separated token. -/
def lineEntry (k : String) (line : String) : Option String :=
  match splitChar ' ' line with
  | [] => none
  | key :: rest => if key = k then some (joinWith " " rest) else none

/-- The values carried by the lines of the dump whose key is `k`, in order of
appearance. -/
def valuesOf (lines : List String) (k : String) : List String :=
  lines.filterMap (lineEntry k)

/-- How many lines of the dump carry the key `k`. -/
def keyCount (lines : List String) (k : String) : Nat := (valuesOf lines k).length

/-!  ### AWS data model (the fields of the SDK responses the code reads) -/

/-- An EC2 instance record (`types.Instance`), restricted to the fields the
code dereferences. -/
structure EC2Instance where
  instanceId : String
  privateIpAddress : String
deriving DecidableEq, Repr

/-- A reservation in a `DescribeInstances` response. -/
structure Reservation where
  instances : List EC2Instance
deriving DecidableEq, Repr

/-- A `DescribeInstances` response. -/
structure DescribeInstancesResult where
  reservations : List Reservation
deriving DecidableEq, Repr

/-- An instance status record (`types.InstanceStatus`), restricted to the
availability zone the code reads. -/
structure InstanceStatus where
  availabilityZone : String
deriving DecidableEq, Repr

/-- The EC2 Instance Connect `SendSSHPublicKey` response payload. -/
structure SendSSHPublicKeyOutput where
  success : Bool
deriving DecidableEq, Repr

/-- Result of `exec.Cmd.Run` on the final `ssh` subprocess: nil error
(exit code 0), an `*exec.ExitError` carrying the child's exit code, or a
spawn-level failure that is not an `ExitError`. -/
inductive RunResult where
  | success
  | exitError (code : Int)
  | startError (msg : String)
deriving DecidableEq, Repr

/-- The data `ssh.go` keeps about the target (`instanceInfo`). -/
structure InstanceInfo where
  username : String
  ipAddress : String
  host : String
deriving DecidableEq, Repr

/-- The fixed region list (ssh.go:29). -/
def regions : List String := ["us-west-1", "us-west-2"]

/-!  ### The environment of external oracles -/

/-- All external behaviour an invocation can observe, as response oracles:
the `ssh -G` subprocess, DNS, the filesystem, the OS user database, the AWS
APIs per region, and the final `ssh` subprocess. -/
structure Env where
  /-- Stdout lines of `ssh` run with the given argv, or its failure. -/
  sshDumpConfig : List String → Except GoError (List String)
  /-- `net.Resolver.LookupIP` for a host: the resolved addresses. -/
  lookupIP : String → Except GoError (List String)
  /-- `config.LoadDefaultConfig` for a region. -/
  loadDefaultConfig : String → Except GoError Unit
  /-- `DescribeInstances` filtered by private IP, per region. -/
  describeInstances : String → String → Except GoError DescribeInstancesResult
  /-- `DescribeInstanceStatus` for one instance id, per region: the
  `InstanceStatuses` slice of the response. -/
  describeInstanceStatus : String → String → Except GoError (List InstanceStatus)
  /-- `SendSSHPublicKey` given region, availability zone, instance id,
  OS user and public key text. -/
  sendSSHPublicKey : String → String → String → String → String →
    Except GoError SendSSHPublicKeyOutput
  /-- Whether `os.Stat` on the path fails with `os.ErrNotExist`. -/
  statNotExist : String → Bool
  /-- `ioutil.ReadFile` contents for a path. -/
  readFile : String → Except GoError String
  /-- `user.Current()`: the current user's home directory, or failure. -/
  userCurrent : Except GoError String
  /-- Result of running the final `ssh` subprocess with the given argv. -/
  connectRun : List String → RunResult

/-!  ### The functions of `ssh.go`, one Lean definition per Go function -/

/-- `sshOptions` (ssh.go:66-97): run `ssh -G <args>` and parse its stdout
lines into the configuration map.  A subprocess failure is returned verbatim. -/
def sshOptions (env : Env) (args : List String) : TraceM ConfigMap :=
  match env.sshDumpConfig ("-G" :: args) with
  | Except.error e => (Except.error (Failure.goError e), [Event.dumpConfig])
  | Except.ok lines => (Except.ok (parseOptions lines), [Event.dumpConfig])

/-- `instanceInfoFromString` + `resolveIP` (ssh.go:99-125): resolve the host;
a resolver error propagates; otherwise the first returned address is used
(an empty result list leaves the zero-value address `""` with no error). -/
def instanceInfoFromString (env : Env) (hostname user : String) : TraceM InstanceInfo :=
  match env.lookupIP hostname with
  | Except.error e => (Except.error (Failure.goError e), [Event.dnsLookup hostname])
  | Except.ok ips => (Except.ok ⟨user, ips.headD "", hostname⟩, [Event.dnsLookup hostname])

/-- `expandHomeDirectoryTilde` (ssh.go:146-156): an empty path or one whose
first byte is not `~` is returned unchanged; otherwise the home directory of
the current user (whose lookup may fail, which propagates) is joined with the
remainder of the path. -/
def expandHomeDirectoryTilde (userCurrent : Except GoError String) (path : String) :
    Except GoError String :=
  if path.length = 0 ∨ strFront path ≠ '~' then Except.ok path
  else
    match userCurrent with
    | Except.error e => Except.error e
    | Except.ok home => Except.ok (filepathJoin home (strDrop1 path))

/-- The value `expandHomeDirectoryTilde` returns when the user lookup is
available (it only fails when the lookup itself fails). -/
def expandedPath (home p : String) : String :=
  if p.length = 0 ∨ strFront p ≠ '~' then p else filepathJoin home (strDrop1 p)

/-- `existingKey` (ssh.go:127-142): walk the candidate paths in order; expand
the tilde (an expansion error propagates); skip a path whose `os.Stat` fails
with `ErrNotExist`; return the first remaining path.  Purely local: emits no
network events. -/
def existingKey (env : Env) : List String → Except GoError String
  | [] => Except.error "cannot find any ssh key"
  | p :: rest =>
    match expandHomeDirectoryTilde env.userCurrent p with
    | Except.error e => Except.error e
    | Except.ok path =>
      if env.statNotExist path then existingKey env rest
      else Except.ok path

/-- `readFile` (ssh.go:158-166). -/
def readFileGo (env : Env) (path : String) : Except GoError String := env.readFile path

/-- `getPublicKey` (ssh.go:168-170): read the `.pub` counterpart of the
private key path. -/
def getPublicKey (env : Env) (priv : String) : Except GoError String :=
  readFileGo env (priv ++ ".pub")

/-- `findEC2Instance` (ssh.go:226-248): `DescribeInstances` filtered by the
private IP; a transport error is wrapped and returned; otherwise the first
instance in the reservations whose private address equals the resolved one,
or `none` ("not found", not an error). -/
def findMatch (rs : List Reservation) (ip : String) : Option EC2Instance :=
  ((rs.map Reservation.instances).flatten).find? (fun i => i.privateIpAddress == ip)

/-- Traced wrapper for `findEC2Instance`. -/
def findEC2Instance (env : Env) (region : String) (info : InstanceInfo) :
    TraceM (Option EC2Instance) :=
  match env.describeInstances region info.ipAddress with
  | Except.error e =>
    (Except.error (Failure.goError ("cannot contact with AWS API: " ++ e)),
     [Event.describeInstances region info.ipAddress])
  | Except.ok resp =>
    (Except.ok (findMatch resp.reservations info.ipAddress),
     [Event.describeInstances region info.ipAddress])

/-- `instanceStatus` (ssh.go:213-224): `DescribeInstanceStatus` for the one
instance id; an API error propagates unwrapped; otherwise the code reads
`InstanceStatuses[0]` with no emptiness check, which panics (index out of
range) when the response carries no status record. -/
def instanceStatus (env : Env) (region : String) (inst : EC2Instance) :
    TraceM InstanceStatus :=
  match env.describeInstanceStatus region inst.instanceId with
  | Except.error e =>
    (Except.error (Failure.goError e), [Event.describeInstanceStatus region inst.instanceId])
  | Except.ok [] =>
    (Except.error Failure.panic, [Event.describeInstanceStatus region inst.instanceId])
  | Except.ok (s :: _) =>
    (Except.ok s, [Event.describeInstanceStatus region inst.instanceId])

/-- `setupEC2Instance` (ssh.go:172-211): load the AWS config for the region,
find the instance by private IP (a `none` result returns `false`: not found
in this region), fetch its status (error wrapped with a prefix), then push
the public key; an injection transport error or a response without the
success flag is a hard error, otherwise the region succeeded. -/
def setupEC2Instance (env : Env) (info : InstanceInfo) (publicKey region : String) :
    TraceM Bool :=
  match env.loadDefaultConfig region with
  | Except.error e =>
    (Except.error (Failure.goError ("cannot get config for AWS: " ++ e)),
     [Event.loadAwsConfig region])
  | Except.ok _ =>
    tbind ((Except.ok (), [Event.loadAwsConfig region]) : TraceM Unit) (fun _ =>
    tbind (findEC2Instance env region info) (fun ec2Instance =>
      match ec2Instance with
      | none => tpure false
      | some inst =>
        tbind (wrapGoError "cannot get the instance status: "
                 (instanceStatus env region inst)) (fun status =>
          match env.sendSSHPublicKey region status.availabilityZone inst.instanceId
                  info.username publicKey with
          | Except.error e =>
            (Except.error (Failure.goError ("cannot upload the public key: " ++ e)),
             [Event.sendSSHPublicKey region inst.instanceId])
          | Except.ok out =>
            if out.success = false then
              (Except.error (Failure.goError "unsuccessful uploaded the public key"),
               [Event.sendSSHPublicKey region inst.instanceId])
            else
              (Except.ok true, [Event.sendSSHPublicKey region inst.instanceId]))))

/-- The region loop of `ssh` (ssh.go:52-61): try each region in declared
order; an error from `setupEC2Instance` aborts; a found region breaks out
(`Except.ok true` = provisioned); running off the end of the list is
`Except.ok false` (exhausted, not an error). -/
def sweepRegions (env : Env) (info : InstanceInfo) (publicKey : String) :
    List String → TraceM Bool
  | [] => (Except.ok false, [])
  | region :: rest =>
    tbind (setupEC2Instance env info publicKey region) (fun found =>
      if found then (Except.ok true, []) else sweepRegions env info publicKey rest)

/-- `connectToInstance` (ssh.go:250-268): run `ssh` with the original argv;
a nil error (exit 0) or an `ExitError` with code 130 is a normal outcome;
any other error is wrapped into a connection error. -/
def connectToInstance (env : Env) (params : List String) : TraceM Unit :=
  match env.connectRun params with
  | RunResult.success => (Except.ok (), [Event.connectSpawn])
  | RunResult.exitError code =>
    if code = 130 then (Except.ok (), [Event.connectSpawn])
    else
      (Except.error (Failure.goError
        ("error while connecting to the instance: exit status " ++ toString code)),
       [Event.connectSpawn])
  | RunResult.startError m =>
    (Except.error (Failure.goError ("error while connecting to the instance: " ++ m)),
     [Event.connectSpawn])

/-- Go slice indexing `l[i]`: out of range panics. -/
def sliceGet (l : List String) (i : Nat) : TraceM String :=
  match l.get? i with
  | none => (Except.error Failure.panic, [])
  | some v => (Except.ok v, [])

/-- Lift a pure (non-traced) Go call into the trace monad. -/
def liftE {α : Type} : Except GoError α → TraceM α
  | Except.error e => (Except.error (Failure.goError e), [])
  | Except.ok a => (Except.ok a, [])

/-- The tail of `ssh` (ssh.go:52-63): the region sweep followed
unconditionally — when the sweep returns without error — by the final
connection attempt. -/
def provisionAndConnect (env : Env) (info : InstanceInfo) (publicKey : String)
    (args : List String) : TraceM Unit :=
  tbind (sweepRegions env info publicKey regions) (fun _ => connectToInstance env args)

/-- The `getPublicKey` call inside `ssh` (ssh.go:47-50): a read failure is
replaced by the guidance message naming the `.pub` path. -/
def readPublicKeyStep (env : Env) (pk : String) : TraceM String :=
  match getPublicKey env pk with
  | Except.error _ =>
    (Except.error (Failure.goError
      ("cannot read the public key " ++ pk ++
       ".pub. If you want to provide a custom key location, use the `-i` parameter")),
     [])
  | Except.ok k => (Except.ok k, [])

/-- `ssh` (ssh.go:31-64), the top-level flow: dump and parse the
configuration; read `options["hostname"][0]` and `options["user"][0]`
(unguarded slice accesses); resolve the host; locate an existing key among
`options["identityfile"]`; read its public half; sweep the regions; connect. -/
def sshRun (env : Env) (args : List String) : TraceM Unit :=
  tbind (sshOptions env args) (fun options =>
  tbind (sliceGet (mapIndex options "hostname") 0) (fun hostname =>
  tbind (sliceGet (mapIndex options "user") 0) (fun user =>
  tbind (instanceInfoFromString env hostname user) (fun info =>
  tbind (liftE (existingKey env (mapIndex options "identityfile"))) (fun pk =>
  tbind (readPublicKeyStep env pk) (fun publicKey =>
  provisionAndConnect env info publicKey args))))))

/-- `main` (main.go:9-17): a nil result exits 0 printing nothing; a returned
error is printed and the process exits 1; a Go panic crashes with the
runtime's exit code 2 and no `fmt.Println` output. -/
def mainReport : Except Failure Unit → Nat × Option String
  | Except.ok _ => (0, none)
  | Except.error (Failure.goError m) => (1, some m)
  | Except.error Failure.panic => (2, none)

/-- The whole wrapper process: exit code and printed error message. -/
def mainRun (env : Env) (args : List String) : Nat × Option String :=
  mainReport (sshRun env args).1

/-!  ### Trace observations -/

/-- The regions whose inventory (`DescribeInstances`) was queried, in call
order. -/
def inventoryQueries (tr : List Event) : List String :=
  tr.filterMap (fun e => match e with
    | Event.describeInstances r _ => some r
    | _ => none)

/-- Whether an event is a call to the cloud provider's APIs (AWS SDK loading
of the local configuration is not a cloud call). -/
def isCloudCall : Event → Bool
  | Event.describeInstances _ _ => true
  | Event.describeInstanceStatus _ _ => true
  | Event.sendSSHPublicKey _ _ => true
  | _ => false

/-- Whether an event is a network call of any kind (cloud API or DNS). -/
def isNetworkCall (e : Event) : Bool :=
  isCloudCall e || match e with
    | Event.dnsLookup _ => true
    | _ => false

/-!  ### Concrete environments used by counterexamples and witnesses -/

/-- A configuration dump in which `hostname`, `user` and `identityfile` each
appear twice, so that the lost first value of each key leaves the slice
accesses of the top-level flow in bounds. -/
def dumpTwice : List String :=
  ["hostname box.internal", "hostname box.internal",
   "user alice", "user alice",
   "identityfile ~/.ssh/k1", "identityfile ~/.ssh/k2"]

/-- A benign baseline environment: the dump yields `dumpTwice`, the host
resolves to `10.0.0.5`, the key files exist and read fine, both regions
report no matching instance, and the final client exits 0. -/
def envBase : Env where
  sshDumpConfig := fun _ => Except.ok dumpTwice
  lookupIP := fun _ => Except.ok ["10.0.0.5"]
  loadDefaultConfig := fun _ => Except.ok ()
  describeInstances := fun _ _ => Except.ok ⟨[]⟩
  describeInstanceStatus := fun _ _ => Except.ok [⟨"us-west-2a"⟩]
  sendSSHPublicKey := fun _ _ _ _ _ => Except.ok ⟨true⟩
  statNotExist := fun _ => false
  readFile := fun _ => Except.ok "ssh-ed25519 AAAA"
  userCurrent := Except.ok "/home/alice"
  connectRun := fun _ => RunResult.success

/-- Environment where every candidate key file is missing from disk: the
credential locator must fail. -/
def envNoKey : Env :=
  { envBase with statNotExist := fun _ => true }

/-- Environment where loading the AWS configuration for the first region
fails hard: provisioning aborts before the final connection. -/
def envCfgFail : Env :=
  { envBase with loadDefaultConfig := fun _ => Except.error "boom" }

/-- Environment where the final client exits with code 130 (interrupted). -/
def envInterrupted : Env :=
  { envBase with connectRun := fun _ => RunResult.exitError 130 }

/-- Environment where a matching instance exists in the first region but the
key-injection response reports no success. -/
def envRejected : Env :=
  { envBase with
      describeInstances := fun _ _ => Except.ok ⟨[⟨[⟨"i-123", "10.0.0.5"⟩]⟩]⟩
      sendSSHPublicKey := fun _ _ _ _ _ => Except.ok ⟨false⟩ }

/-- Environment whose instance-status response carries no status record. -/
def envNoStatus : Env :=
  { envBase with describeInstanceStatus := fun _ _ => Except.ok [] }

/-- Environment where the first region has no matching instance and the
second holds the target instance, with injection succeeding. -/
def envFound : Env :=
  { envBase with
      describeInstances := fun r ip =>
        if r = "us-west-2" then Except.ok ⟨[⟨[⟨"i-123", ip⟩]⟩]⟩
        else Except.ok ⟨[]⟩ }

/-!  ### Laws of the configuration map and the dump parser -/

theorem cmLookup_update_self (res : ConfigMap) (k : String) (v vs : List String)
    (h : cmLookup res k = some vs) : cmLookup (cmUpdate res k v) k = some v := by
  induction res with
  | nil => simp [cmLookup] at h
  | cons p rest ih =>
    obtain ⟨k0, v0⟩ := p
    by_cases hk : k0 = k
    · simp [cmLookup, cmUpdate, hk]
    · simp only [cmLookup, cmUpdate, if_neg hk] at h ⊢
      exact ih h

theorem cmLookup_update_ne (res : ConfigMap) (k k' : String) (v : List String)
    (h : k' ≠ k) : cmLookup (cmUpdate res k v) k' = cmLookup res k' := by
  induction res with
  | nil => simp [cmUpdate]
  | cons p rest ih =>
    obtain ⟨k0, v0⟩ := p
    by_cases hk : k0 = k
    · subst hk
      have hne : k0 ≠ k' := Ne.symm h
      simp [cmUpdate, cmLookup, hne]
    · by_cases hk' : k0 = k' <;> simp [cmUpdate, cmLookup, hk, hk', ih, h]

theorem cmLookup_append_self (res : ConfigMap) (k : String) (v : List String)
    (h : cmLookup res k = none) : cmLookup (res ++ [(k, v)]) k = some v := by
  induction res with
  | nil => simp [cmLookup]
  | cons p rest ih =>
    obtain ⟨k0, v0⟩ := p
    by_cases hk : k0 = k
    · simp [cmLookup, hk] at h
    · simp only [cmLookup, List.cons_append, if_neg hk] at h ⊢
      exact ih h

theorem cmLookup_append_ne (res : ConfigMap) (k k' : String) (v : List String)
    (h : k' ≠ k) : cmLookup (res ++ [(k, v)]) k' = cmLookup res k' := by
  induction res with
  | nil =>
    have hne : k ≠ k' := Ne.symm h
    simp [cmLookup, hne]
  | cons p rest ih =>
    obtain ⟨k0, v0⟩ := p
    by_cases hk' : k0 = k' <;> simp [cmLookup, hk', ih]

/-- Invariant of the scanner loop: relative to an accumulated map, the lines
with key `k` either all append (key already present) or the first one only
marks the key and the rest append. -/
theorem cmLookup_parse_fold (k : String) (lines : List String) :
    ∀ (res : ConfigMap),
      cmLookup (lines.foldl parseStep res) k =
        match cmLookup res k with
        | some vs => some (vs ++ valuesOf lines k)
        | none =>
          match valuesOf lines k with
          | [] => none
          | _ :: tl => some tl := by
  induction lines with
  | nil =>
    intro res
    cases h : cmLookup res k <;> simp [valuesOf, h]
  | cons line ls ih =>
    intro res
    rw [List.foldl_cons, ih (parseStep res line)]
    cases hsplit : splitChar ' ' line with
    | nil =>
      have hstep : parseStep res line = res := by simp [parseStep, hsplit]
      have hentry : lineEntry k line = none := by simp [lineEntry, hsplit]
      simp [hstep, valuesOf, List.filterMap_cons, hentry]
    | cons key rest =>
      by_cases hkey : key = k
      · subst hkey
        have hentry : lineEntry key line = some (joinWith " " rest) := by
          simp [lineEntry, hsplit]
        cases hres : cmLookup res key with
        | none =>
          have hstep : parseStep res line = res ++ [(key, [])] := by
            simp [parseStep, hsplit, hres]
          have hlook : cmLookup (parseStep res line) key = some [] := by
            rw [hstep]
            exact cmLookup_append_self res key [] hres
          rw [hlook]
          simp [valuesOf, List.filterMap_cons, hentry]
        | some vs =>
          have hstep : parseStep res line =
              cmUpdate res key (vs ++ [joinWith " " rest]) := by
            simp [parseStep, hsplit, hres]
          have hlook : cmLookup (parseStep res line) key =
              some (vs ++ [joinWith " " rest]) := by
            rw [hstep]
            exact cmLookup_update_self res key _ vs hres
          rw [hlook]
          simp [valuesOf, List.filterMap_cons, hentry]
      · have hentry : lineEntry k line = none := by
          simp [lineEntry, hsplit, hkey]
        have hpres : cmLookup (parseStep res line) k = cmLookup res k := by
          simp only [parseStep, hsplit]
          cases hres : cmLookup res key with
          | none => exact cmLookup_append_ne res key k [] (fun hh => hkey hh.symm)
          | some vs => exact cmLookup_update_ne res key k _ (fun hh => hkey hh.symm)
        rw [hpres]
        simp [valuesOf, List.filterMap_cons, hentry]

/-- What the parser stores under a key: every value of that key in order of
appearance, except that the first occurrence's value is lost (its sighting
only created the key's empty entry). -/
theorem mapIndex_parse (lines : List String) (k : String) :
    mapIndex (parseOptions lines) k = (valuesOf lines k).tail := by
  have h := cmLookup_parse_fold k lines []
  simp only [cmLookup] at h
  unfold mapIndex parseOptions
  rw [h]
  cases hv : valuesOf lines k <;> simp

/-!  ### Trace-shape lemmas -/

/-- A connection attempt always records exactly its spawn event. -/
theorem connectToInstance_trace (env : Env) (args : List String) :
    (connectToInstance env args).2 = [Event.connectSpawn] := by
  unfold connectToInstance
  cases env.connectRun args with
  | success => rfl
  | exitError c => by_cases h : c = 130 <;> simp [h]
  | startError m => rfl

/-- A single-region provisioning attempt never spawns the final client. -/
theorem connectSpawn_not_in_setup (env : Env) (info : InstanceInfo) (pk r : String) :
    Event.connectSpawn ∉ (setupEC2Instance env info pk r).2 := by
  unfold setupEC2Instance
  cases hc : env.loadDefaultConfig r with
  | error e => simp
  | ok u =>
    unfold tbind findEC2Instance
    cases hq : env.describeInstances r info.ipAddress with
    | error e => simp
    | ok resp =>
      cases hm : findMatch resp.reservations info.ipAddress with
      | none => simp [hm, tpure]
      | some inst =>
        unfold wrapGoError instanceStatus
        cases hs : env.describeInstanceStatus r inst.instanceId with
        | error e => simp [hm, hs]
        | ok l =>
          cases l with
          | nil => simp [hm, hs]
          | cons s t =>
            cases hsend : env.sendSSHPublicKey r s.availabilityZone inst.instanceId
                info.username pk with
            | error e => simp [hm, hs, hsend]
            | ok out => cases hout : out.success <;> simp [hm, hs, hsend, hout]

/-- The region sweep never spawns the final client. -/
theorem connectSpawn_not_in_sweep (env : Env) (info : InstanceInfo) (pk : String) :
    ∀ rs : List String, Event.connectSpawn ∉ (sweepRegions env info pk rs).2 := by
  intro rs
  induction rs with
  | nil => simp [sweepRegions]
  | cons r rest ih =>
    unfold sweepRegions tbind
    have hset := connectSpawn_not_in_setup env info pk r
    rcases hs : setupEC2Instance env info pk r with ⟨res, t⟩
    rw [hs] at hset
    cases res with
    | error f => simpa using hset
    | ok found =>
      cases found <;> simp_all

/-!  ### Tilde expansion -/

/-- With the user lookup available, expansion always succeeds and returns
`expandedPath`. -/
theorem expandHomeDirectoryTilde_ok (home p : String) :
    expandHomeDirectoryTilde (Except.ok home) p = Except.ok (expandedPath home p) := by
  unfold expandHomeDirectoryTilde expandedPath
  split <;> rfl

/-- When no expanded candidate path exists on disk, the locator fails with
its "cannot find any ssh key" error. -/
theorem existingKey_none (env : Env) (home : String)
    (hhome : env.userCurrent = Except.ok home) :
    ∀ paths : List String,
      (∀ p ∈ paths, env.statNotExist (expandedPath home p) = true) →
      existingKey env paths = Except.error "cannot find any ssh key" := by
  intro paths
  induction paths with
  | nil => intro _; rfl
  | cons p rest ih =>
    intro hall
    have hp := hall p (List.mem_cons_self p rest)
    unfold existingKey
    rw [hhome, expandHomeDirectoryTilde_ok]
    simp only [hp, if_true]
    exact ih (fun q hq => hall q (List.mem_cons_of_mem p hq))

/-- An erroring region attempt makes the whole sweep return that error. -/
theorem sweepRegions_cons_error (env : Env) (info : InstanceInfo) (pk r : String)
    (rest : List String) (f : Failure)
    (h : (setupEC2Instance env info pk r).1 = Except.error f) :
    (sweepRegions env info pk (r :: rest)).1 = Except.error f := by
  unfold sweepRegions tbind
  rcases hs : setupEC2Instance env info pk r with ⟨sres, strace⟩
  rw [hs] at h
  cases sres with
  | error g =>
    simp at h
    simp [h]
  | ok b => simp at h

/-!  ### Claim theorems -/

/-- C2 (evidence of the code bug): a configuration dump with two
`identityfile` lines yields a one-element sequence holding only the second
value — the first occurrence's value is dropped — contradicting the
duplicate-preservation property. -/
theorem duplicate_identityfile_loses_first_value :
    cmLookup (parseOptions
        ["identityfile /home/alice/.ssh/k1", "identityfile /home/alice/.ssh/k2"])
        "identityfile" = some ["/home/alice/.ssh/k2"] := by decide

/-- C9: for a key appearing exactly n times the parser stores n-1 values
(the first occurrence is recorded as the key's empty entry and its value
dropped); consequently a dump in which `hostname` appears exactly once — or
`user` appears exactly once while `hostname` appears at least twice — leaves
the flow's unguarded `options[key][0]` access indexing an empty sequence,
and the run ends in a panic. -/
theorem parse_drops_first_value_and_single_keys_panic
    (lines : List String) (k : String) (env : Env) (args : List String) :
    mapIndex (parseOptions lines) k = (valuesOf lines k).tail
    ∧ (mapIndex (parseOptions lines) k).length = keyCount lines k - 1
    ∧ (env.sshDumpConfig ("-G" :: args) = Except.ok lines →
        keyCount lines "hostname" = 1 →
        (sshRun env args).1 = Except.error Failure.panic)
    ∧ (env.sshDumpConfig ("-G" :: args) = Except.ok lines →
        2 ≤ keyCount lines "hostname" → keyCount lines "user" = 1 →
        (sshRun env args).1 = Except.error Failure.panic) := by
  refine ⟨mapIndex_parse lines k, ?_, ?_, ?_⟩
  · rw [mapIndex_parse]
    simp [keyCount]
  · intro hdump hcount
    have hhost : mapIndex (parseOptions lines) "hostname" = [] := by
      rw [mapIndex_parse]
      cases hval : valuesOf lines "hostname" with
      | nil => rfl
      | cons a t =>
        cases t with
        | nil => rfl
        | cons b r =>
          simp [keyCount, hval] at hcount
    simp [sshRun, sshOptions, hdump, tbind, hhost, sliceGet]
  · intro hdump hge huser
    have husr : mapIndex (parseOptions lines) "user" = [] := by
      rw [mapIndex_parse]
      cases hval : valuesOf lines "user" with
      | nil => rfl
      | cons a t =>
        cases t with
        | nil => rfl
        | cons b r =>
          simp [keyCount, hval] at huser
    cases hval : valuesOf lines "hostname" with
    | nil =>
      exfalso
      simp [keyCount, hval] at hge
    | cons a t =>
      cases t with
      | nil =>
        exfalso
        simp [keyCount, hval] at hge
      | cons b r =>
        have hhost : mapIndex (parseOptions lines) "hostname" = b :: r := by
          rw [mapIndex_parse, hval]
          rfl
        simp [sshRun, sshOptions, hdump, tbind, hhost, husr, sliceGet]

/-- C9 witness: on the concrete dump where every key appears once (as in a
real `ssh -G` dump), the stored sequence is one shorter than the occurrence
count and the flow panics. -/
theorem parse_drops_first_value_and_single_keys_panic_witness :
    (mapIndex (parseOptions ["hostname box.internal", "user alice"]) "hostname").length =
      keyCount ["hostname box.internal", "user alice"] "hostname" - 1
    ∧ (sshRun { envBase with
          sshDumpConfig := fun _ => Except.ok ["hostname box.internal", "user alice"] }
        []).1 = Except.error Failure.panic := by
  have h := parse_drops_first_value_and_single_keys_panic
    ["hostname box.internal", "user alice"] "hostname"
    { envBase with
        sshDumpConfig := fun _ => Except.ok ["hostname box.internal", "user alice"] } []
  exact ⟨h.2.1, h.2.2.1 rfl (by decide)⟩

/-- C10: the instance-status fetch reads the first status record unguarded:
with at least one record it returns exactly that record, and on a response
with zero records the access is out of bounds (a panic). -/
theorem instanceStatus_first_entry_unguarded (env : Env) (region : String)
    (inst : EC2Instance) :
    (env.describeInstanceStatus region inst.instanceId = Except.ok [] →
      (instanceStatus env region inst).1 = Except.error Failure.panic)
    ∧ (∀ s rest,
        env.describeInstanceStatus region inst.instanceId = Except.ok (s :: rest) →
        (instanceStatus env region inst).1 = Except.ok s) := by
  constructor
  · intro h
    simp [instanceStatus, h]
  · intro s rest h
    simp [instanceStatus, h]

/-- C10 witness: the unguarded read panics on a concrete empty status
response. -/
theorem instanceStatus_first_entry_unguarded_witness :
    (instanceStatus envNoStatus "us-west-1" ⟨"i-123", "10.0.0.5"⟩).1 =
      Except.error Failure.panic :=
  (instanceStatus_first_entry_unguarded envNoStatus "us-west-1"
    ⟨"i-123", "10.0.0.5"⟩).1 rfl

/-- C8: tilde expansion returns any path that is empty or does not start
with `~` unchanged; a `~`-prefixed path becomes the current user's home
directory joined with the remainder; and a user-lookup failure propagates.
The claim's example `~/.ssh/id_ed25519` is checked concretely. -/
theorem expandHomeDirectoryTilde_cases (u : Except GoError String)
    (home path : String) (e : GoError) :
    ((path = "" ∨ strFront path ≠ '~') →
      expandHomeDirectoryTilde u path = Except.ok path)
    ∧ (strFront path = '~' → u = Except.ok home →
        expandHomeDirectoryTilde u path = Except.ok (filepathJoin home (strDrop1 path)))
    ∧ (strFront path = '~' → u = Except.error e →
        expandHomeDirectoryTilde u path = Except.error e)
    ∧ expandHomeDirectoryTilde (Except.ok "/home/alice") "~/.ssh/id_ed25519" =
        Except.ok "/home/alice/.ssh/id_ed25519" := by
  refine ⟨?_, ?_, ?_, by decide⟩
  · intro h
    have hcond : path.length = 0 ∨ strFront path ≠ '~' := by
      rcases h with h | h
      · subst h
        right
        decide
      · right
        exact h
    simp [expandHomeDirectoryTilde, hcond]
  · intro hfront hu
    have hcond : ¬(path.length = 0 ∨ strFront path ≠ '~') := by
      rintro (h | h)
      · have hnil : path.toList = [] := List.length_eq_zero.mp h
        simp only [strFront, hnil, List.headD] at hfront
        exact absurd hfront (by decide)
      · exact h hfront
    simp [expandHomeDirectoryTilde, hcond, hu]
  · intro hfront hu
    have hcond : ¬(path.length = 0 ∨ strFront path ≠ '~') := by
      rintro (h | h)
      · have hnil : path.toList = [] := List.length_eq_zero.mp h
        simp only [strFront, hnil, List.headD] at hfront
        exact absurd hfront (by decide)
      · exact h hfront
    simp [expandHomeDirectoryTilde, hcond, hu]

/-- C8 witness: a concrete run of each of the three cases. -/
theorem expandHomeDirectoryTilde_cases_witness :
    expandHomeDirectoryTilde (Except.ok "/home/bob") "/etc/key" = Except.ok "/etc/key"
    ∧ expandHomeDirectoryTilde (Except.ok "/home/bob") "~/k" =
        Except.ok (filepathJoin "/home/bob" (strDrop1 "~/k"))
    ∧ expandHomeDirectoryTilde (Except.error "no user") "~/k" =
        Except.error "no user" := by
  refine ⟨?_, ?_, ?_⟩
  · exact (expandHomeDirectoryTilde_cases (Except.ok "/home/bob") "/home/bob"
      "/etc/key" "no user").1 (Or.inr (by decide))
  · exact ((expandHomeDirectoryTilde_cases (Except.ok "/home/bob") "/home/bob"
      "~/k" "no user").2.1) (by decide) rfl
  · exact ((expandHomeDirectoryTilde_cases (Except.error "no user") "/home/bob"
      "~/k" "no user").2.2.1) (by decide) rfl

/-- C6: a final client exit of 130 — like an exit of 0 — maps through the
`main` error handling to wrapper exit 0 with nothing printed; any other
non-zero exit, and any spawn failure, maps to wrapper exit 1 with a printed
connection-error message.  The last conjunct ties this mapping to the whole
process for invocations whose outcome is the connection step's outcome. -/
theorem connect_exit_code_mapping (env : Env) (args : List String) :
    (env.connectRun args = RunResult.exitError 130 →
      mainReport (connectToInstance env args).1 = (0, none))
    ∧ (env.connectRun args = RunResult.success →
      mainReport (connectToInstance env args).1 = (0, none))
    ∧ (∀ c : Int, env.connectRun args = RunResult.exitError c → c ≠ 130 →
      mainReport (connectToInstance env args).1 =
        (1, some ("error while connecting to the instance: exit status " ++ toString c)))
    ∧ (∀ m, env.connectRun args = RunResult.startError m →
      mainReport (connectToInstance env args).1 =
        (1, some ("error while connecting to the instance: " ++ m)))
    ∧ ((sshRun env args).1 = (connectToInstance env args).1 →
      mainRun env args = mainReport (connectToInstance env args).1) := by
  refine ⟨?_, ?_, ?_, ?_, ?_⟩
  · intro h
    simp [connectToInstance, h, mainReport]
  · intro h
    simp [connectToInstance, h, mainReport]
  · intro c h hne
    simp [connectToInstance, h, hne, mainReport]
  · intro m h
    simp [connectToInstance, h, mainReport]
  · intro h
    rw [mainRun, h]

/-- C6 witness: a client exit of 130 gives wrapper exit 0, nothing printed. -/
theorem connect_exit_code_mapping_witness :
    mainRun envInterrupted [] = (0, none) := by
  have h := connect_exit_code_mapping envInterrupted []
  rw [h.2.2.2.2 (by decide)]
  exact h.1 rfl

/-- C5: a hard error from the first region's inventory query terminates the
sweep in the failed state, propagating the wrapped error; the second region
is never queried and the error is not treated as "not found". -/
theorem sweep_hard_error_stops (env : Env) (info : InstanceInfo) (pk : String)
    (e : GoError)
    (hcfg : env.loadDefaultConfig "us-west-1" = Except.ok ())
    (hq : env.describeInstances "us-west-1" info.ipAddress = Except.error e) :
    (sweepRegions env info pk regions).1 =
      Except.error (Failure.goError ("cannot contact with AWS API: " ++ e))
    ∧ (sweepRegions env info pk regions).2 =
      [Event.loadAwsConfig "us-west-1",
       Event.describeInstances "us-west-1" info.ipAddress]
    ∧ inventoryQueries (sweepRegions env info pk regions).2 = ["us-west-1"] := by
  have hsw : sweepRegions env info pk regions =
      (Except.error (Failure.goError ("cannot contact with AWS API: " ++ e)),
       [Event.loadAwsConfig "us-west-1",
        Event.describeInstances "us-west-1" info.ipAddress]) := by
    simp [regions, sweepRegions, setupEC2Instance, findEC2Instance, tbind, hcfg, hq]
  rw [hsw]
  simp [inventoryQueries]

/-- C5 witness: a concrete hard inventory error in the first region. -/
theorem sweep_hard_error_stops_witness :
    (sweepRegions { envBase with describeInstances := fun _ _ => Except.error "denied" }
      ⟨"alice", "10.0.0.5", "box.internal"⟩ "KEY" regions).1 =
      Except.error (Failure.goError ("cannot contact with AWS API: " ++ "denied"))
    ∧ inventoryQueries (sweepRegions
        { envBase with describeInstances := fun _ _ => Except.error "denied" }
        ⟨"alice", "10.0.0.5", "box.internal"⟩ "KEY" regions).2 = ["us-west-1"] := by
  have h := sweep_hard_error_stops
    { envBase with describeInstances := fun _ _ => Except.error "denied" }
    ⟨"alice", "10.0.0.5", "box.internal"⟩ "KEY" "denied" rfl rfl
  exact ⟨h.1, h.2.2⟩

/-- C4: with the first region reporting no match and the second region
holding a matching instance whose status fetch and key injection succeed,
the sweep terminates provisioned; the inventory queries are exactly
`us-west-1` then `us-west-2`: declared order, each region once, nothing
beyond the successful one. -/
theorem sweep_provisions_in_order (env : Env) (info : InstanceInfo) (pk : String)
    (respA respB : DescribeInstancesResult) (inst : EC2Instance)
    (st : InstanceStatus) (stRest : List InstanceStatus)
    (hcfgA : env.loadDefaultConfig "us-west-1" = Except.ok ())
    (hqA : env.describeInstances "us-west-1" info.ipAddress = Except.ok respA)
    (hnfA : findMatch respA.reservations info.ipAddress = none)
    (hcfgB : env.loadDefaultConfig "us-west-2" = Except.ok ())
    (hqB : env.describeInstances "us-west-2" info.ipAddress = Except.ok respB)
    (hfB : findMatch respB.reservations info.ipAddress = some inst)
    (hst : env.describeInstanceStatus "us-west-2" inst.instanceId =
      Except.ok (st :: stRest))
    (hsend : env.sendSSHPublicKey "us-west-2" st.availabilityZone inst.instanceId
      info.username pk = Except.ok ⟨true⟩) :
    (sweepRegions env info pk regions).1 = Except.ok true
    ∧ inventoryQueries (sweepRegions env info pk regions).2 =
        ["us-west-1", "us-west-2"] := by
  have hsw : sweepRegions env info pk regions =
      (Except.ok true,
       [Event.loadAwsConfig "us-west-1",
        Event.describeInstances "us-west-1" info.ipAddress,
        Event.loadAwsConfig "us-west-2",
        Event.describeInstances "us-west-2" info.ipAddress,
        Event.describeInstanceStatus "us-west-2" inst.instanceId,
        Event.sendSSHPublicKey "us-west-2" inst.instanceId]) := by
    simp [regions, sweepRegions, setupEC2Instance, findEC2Instance, instanceStatus,
          wrapGoError, tbind, tpure, hcfgA, hqA, hnfA, hcfgB, hqB, hfB, hst, hsend]
  rw [hsw]
  simp [inventoryQueries]

/-- C4 witness: the concrete two-region scenario of the spec. -/
theorem sweep_provisions_in_order_witness :
    (sweepRegions envFound ⟨"alice", "10.0.0.5", "box.internal"⟩ "KEY" regions).1 =
      Except.ok true
    ∧ inventoryQueries (sweepRegions envFound ⟨"alice", "10.0.0.5", "box.internal"⟩
        "KEY" regions).2 = ["us-west-1", "us-west-2"] :=
  sweep_provisions_in_order envFound ⟨"alice", "10.0.0.5", "box.internal"⟩ "KEY"
    ⟨[]⟩ ⟨[⟨[⟨"i-123", "10.0.0.5"⟩]⟩]⟩ ⟨"i-123", "10.0.0.5"⟩ ⟨"us-west-2a"⟩ []
    (by decide) (by decide) (by decide) (by decide) (by decide) (by decide)
    (by decide) (by decide)

/-- C7: once a region's provisioning reaches the key-injection call, the
attempt counts as found-and-provisioned exactly when the call returns
error-free AND the payload carries the success flag; a transport error, or a
response without the flag, is a hard error that also aborts the surrounding
sweep. -/
theorem keyInjection_needs_flag_and_no_error (env : Env) (info : InstanceInfo)
    (pk region : String) (rest : List String) (resp : DescribeInstancesResult)
    (inst : EC2Instance) (st : InstanceStatus) (stRest : List InstanceStatus)
    (hcfg : env.loadDefaultConfig region = Except.ok ())
    (hq : env.describeInstances region info.ipAddress = Except.ok resp)
    (hf : findMatch resp.reservations info.ipAddress = some inst)
    (hst : env.describeInstanceStatus region inst.instanceId =
      Except.ok (st :: stRest)) :
    (∀ out, env.sendSSHPublicKey region st.availabilityZone inst.instanceId
        info.username pk = Except.ok out →
      ((setupEC2Instance env info pk region).1 = Except.ok true ↔
        out.success = true))
    ∧ (∀ e, env.sendSSHPublicKey region st.availabilityZone inst.instanceId
        info.username pk = Except.error e →
      (setupEC2Instance env info pk region).1 =
        Except.error (Failure.goError ("cannot upload the public key: " ++ e))
      ∧ (sweepRegions env info pk (region :: rest)).1 =
        Except.error (Failure.goError ("cannot upload the public key: " ++ e)))
    ∧ (∀ out, env.sendSSHPublicKey region st.availabilityZone inst.instanceId
        info.username pk = Except.ok out → out.success = false →
      (setupEC2Instance env info pk region).1 =
        Except.error (Failure.goError "unsuccessful uploaded the public key")
      ∧ (sweepRegions env info pk (region :: rest)).1 =
        Except.error (Failure.goError "unsuccessful uploaded the public key")) := by
  refine ⟨?_, ?_, ?_⟩
  · intro out hsend
    cases hout : out.success with
    | true =>
      simp [setupEC2Instance, findEC2Instance, instanceStatus, wrapGoError, tbind,
            hcfg, hq, hf, hst, hsend, hout]
    | false =>
      simp [setupEC2Instance, findEC2Instance, instanceStatus, wrapGoError, tbind,
            hcfg, hq, hf, hst, hsend, hout]
  · intro e hsend
    have hset : (setupEC2Instance env info pk region).1 =
        Except.error (Failure.goError ("cannot upload the public key: " ++ e)) := by
      simp [setupEC2Instance, findEC2Instance, instanceStatus, wrapGoError, tbind,
            hcfg, hq, hf, hst, hsend]
    exact ⟨hset, sweepRegions_cons_error env info pk region rest _ hset⟩
  · intro out hsend hflag
    have hset : (setupEC2Instance env info pk region).1 =
        Except.error (Failure.goError "unsuccessful uploaded the public key") := by
      simp [setupEC2Instance, findEC2Instance, instanceStatus, wrapGoError, tbind,
            hcfg, hq, hf, hst, hsend, hflag]
    exact ⟨hset, sweepRegions_cons_error env info pk region rest _ hset⟩

/-- C7 witness: a concrete injection response without the success flag is a
hard error for the attempt and for the sweep. -/
theorem keyInjection_needs_flag_and_no_error_witness :
    (setupEC2Instance envRejected ⟨"alice", "10.0.0.5", "box.internal"⟩ "KEY"
        "us-west-1").1 =
      Except.error (Failure.goError "unsuccessful uploaded the public key")
    ∧ (sweepRegions envRejected ⟨"alice", "10.0.0.5", "box.internal"⟩ "KEY"
        ("us-west-1" :: ["us-west-2"])).1 =
      Except.error (Failure.goError "unsuccessful uploaded the public key") :=
  (keyInjection_needs_flag_and_no_error envRejected
    ⟨"alice", "10.0.0.5", "box.internal"⟩ "KEY" "us-west-1" ["us-west-2"]
    ⟨[⟨[⟨"i-123", "10.0.0.5"⟩]⟩]⟩ ⟨"i-123", "10.0.0.5"⟩ ⟨"us-west-2a"⟩ []
    (by decide) (by decide) (by decide) (by decide)).2.2 ⟨false⟩ (by decide) rfl

/-- C1 (amended): once the region sweep returns without a hard error —
provisioned or exhausted — the wrapper always attempts the final connection;
a hard provisioning error propagates unchanged and the connection is never
attempted. -/
theorem provisioning_outcome_gates_connection (env : Env) (info : InstanceInfo)
    (pk : String) (args : List String) :
    (∀ b, (sweepRegions env info pk regions).1 = Except.ok b →
      Event.connectSpawn ∈ (provisionAndConnect env info pk args).2)
    ∧ (∀ f, (sweepRegions env info pk regions).1 = Except.error f →
      (provisionAndConnect env info pk args).1 = Except.error f
      ∧ Event.connectSpawn ∉ (provisionAndConnect env info pk args).2) := by
  have hconn := connectToInstance_trace env args
  have hnosp := connectSpawn_not_in_sweep env info pk regions
  unfold provisionAndConnect tbind
  rcases hsw : sweepRegions env info pk regions with ⟨res, t⟩
  rw [hsw] at hnosp
  constructor
  · intro b hb
    simp at hb
    subst hb
    simp [hconn]
  · intro f hf
    simp at hf
    subst hf
    constructor
    · simp
    · simpa using hnosp

/-- C1 witness: in a benign environment (sweep exhausted with no error) the
connection is attempted. -/
theorem provisioning_outcome_gates_connection_witness :
    Event.connectSpawn ∈ (provisionAndConnect envBase
      ⟨"alice", "10.0.0.5", "box.internal"⟩ "KEY" []).2 :=
  (provisioning_outcome_gates_connection envBase
    ⟨"alice", "10.0.0.5", "box.internal"⟩ "KEY" []).1 false (by decide)

/-- C1 counterexample (to the claim as stated): a concrete invocation whose
provisioning fails hard returns the provisioning error and never attempts
the underlying connection — a provisioning outcome that does prevent the
call to the connection launcher. -/
theorem provisioning_error_prevents_connection :
    (sshRun envCfgFail []).1 =
      Except.error (Failure.goError "cannot get config for AWS: boom")
    ∧ Event.connectSpawn ∉ (sshRun envCfgFail []).2 := by decide

/-- C3 (amended): when every candidate credential path is missing, the
wrapper fails with the locator's "cannot find any ssh key" error and exits 1
with that message; no cloud call is made before the failure — but hostname
resolution has already happened: the run's external calls are exactly the
configuration dump and the DNS lookup. -/
theorem missing_credentials_fail_before_cloud (env : Env)
    (args lines : List String) (hv uv home : String)
    (hrest urest ips : List String)
    (hdump : env.sshDumpConfig ("-G" :: args) = Except.ok lines)
    (hhost : mapIndex (parseOptions lines) "hostname" = hv :: hrest)
    (huser : mapIndex (parseOptions lines) "user" = uv :: urest)
    (hip : env.lookupIP hv = Except.ok ips)
    (hhome : env.userCurrent = Except.ok home)
    (hnone : ∀ p ∈ mapIndex (parseOptions lines) "identityfile",
      env.statNotExist (expandedPath home p) = true) :
    (sshRun env args).1 = Except.error (Failure.goError "cannot find any ssh key")
    ∧ mainRun env args = (1, some "cannot find any ssh key")
    ∧ (sshRun env args).2 = [Event.dumpConfig, Event.dnsLookup hv]
    ∧ ∀ e ∈ (sshRun env args).2, isCloudCall e = false := by
  have hkey := existingKey_none env home hhome
    (mapIndex (parseOptions lines) "identityfile") hnone
  have hrun : sshRun env args =
      (Except.error (Failure.goError "cannot find any ssh key"),
       [Event.dumpConfig, Event.dnsLookup hv]) := by
    simp [sshRun, sshOptions, hdump, tbind, hhost, huser, sliceGet,
          instanceInfoFromString, hip, liftE, hkey]
  refine ⟨by rw [hrun], by simp [mainRun, hrun, mainReport], by rw [hrun], ?_⟩
  rw [hrun]
  intro e he
  simp at he
  rcases he with rfl | rfl <;> rfl

/-- C3 witness: the concrete no-credential scenario. -/
theorem missing_credentials_fail_before_cloud_witness :
    mainRun envNoKey [] = (1, some "cannot find any ssh key")
    ∧ (sshRun envNoKey []).2 = [Event.dumpConfig, Event.dnsLookup "box.internal"] := by
  have h := missing_credentials_fail_before_cloud envNoKey [] dumpTwice
    "box.internal" "alice" "/home/alice" [] [] ["10.0.0.5"]
    rfl (by decide) (by decide) rfl rfl (fun p hp => rfl)
  exact ⟨h.2.1, h.2.2.1⟩

/-- C3 counterexample (to the claim as stated): in the concrete
no-credential scenario the wrapper exits 1 with the locator's message — not
one containing the missing-public-key guidance — and a network call (the
hostname resolution) has already been made before the failure. -/
theorem network_call_before_credential_failure :
    mainRun envNoKey [] = (1, some "cannot find any ssh key")
    ∧ (sshRun envNoKey []).2.any isNetworkCall = true := by decide

end EC2SSH
